import Mathlib

/-!
Shallow embedding of the simulation engine in `src/programs/sim/sim.py`.

Modelling conventions, fixed once for the whole file:

* Machine floats (`np.float32`) are embedded as exact rationals `ℚ`.  Every
  claim settled here is about comparison, counting, draw-order and data-flow
  logic, none of which depends on rounding.
* The two NumPy generators (`default_rng(seed)` for initialization and
  `default_rng(seed + 1)` for the monthly kernel) are embedded as oracle
  streams `ℕ → ℚ`: position `n` of a stream is the `n`-th variate that the
  generator returns, in program order.  A vectorized call `rng.random(size)`
  consumes `size` consecutive positions; a subset-sized call such as
  `rng.lognormal(..., size=shocked.sum())` consumes exactly that many
  positions, assigned to the selected agents in index order.  For
  `rng.normal(loc=mu, scale=sigma)` the returned variate is modelled as
  `mu + sigma * u` with `u` the oracle value (NumPy's standard-normal
  transform applied to its bit stream is abstracted into the oracle); for
  log-normal draws the oracle value itself is taken as the drawn variate,
  since the exponential transform is not representable over `ℚ` and no claim
  depends on the shape of the distribution.
* `uint8` arithmetic is modelled exactly: `um[mask] + 1` on a `uint8` array
  wraps modulo 256 before `np.minimum(..., 255)` is applied.
* Fallible library calls are modelled with `Except String`: `rng.choice`
  raises when the probability vector is invalid (the floating tolerance of
  NumPy's check is abstracted to an exact check over `ℚ`), `range(0, N, 0)`
  raises, `np.percentile` on an empty sample raises, and the float power
  `(1.0 - job_slot_decline) ** (months - 1)` raises `ZeroDivisionError`
  when its base is exactly zero and its exponent negative (`months = 0`).
-/

set_option maxRecDepth 8000

abbrev StreamQ := ℕ → ℚ

/-- The four-state encoding STABLE=0, PRECARIOUS=1, INSOLVENT=2, EXITED=3. -/
inductive AgentState
  | STABLE
  | PRECARIOUS
  | INSOLVENT
  | EXITED
deriving DecidableEq, Inhabited

open AgentState

/-- One agent's row of the columnar per-agent arrays: `capital` (float32 →
`ℚ`), `tiers` (uint8 in {0,1,2} → `Fin 3`), `employed` (uint8 in {0,1} →
`Bool`), `unemp_months` (uint8 → `ℕ`, kept below 256 by the modelled wrap)
and `state`. -/
structure Agent where
  capital : ℚ
  tier : Fin 3
  employed : Bool
  um : ℕ
  state : AgentState
deriving DecidableEq, Inhabited

/-- The `SimParams` dataclass.  The three-float tuples of the source are kept
as tuples `ℚ × ℚ × ℚ`; `hist_bins` is the tuple of bin edges. -/
structure SimParams where
  seed : ℕ
  months : ℕ
  capital_logn_mu : ℚ
  capital_logn_sigma : ℚ
  capital_cap_max : ℚ
  tier_probs : ℚ × ℚ × ℚ
  job_slot_ratio0 : ℚ
  job_slot_decline : ℚ
  hire_friction : ℚ
  rev_employed_mu : ℚ × ℚ × ℚ
  rev_unemployed_mu : ℚ × ℚ × ℚ
  rev_sigma : ℚ × ℚ × ℚ
  shock_prob_monthly : ℚ
  shock_cost_mu : ℚ
  shock_cost_sigma : ℚ
  separation_prob_monthly : ℚ
  separation_income_hit : ℚ
  precarious_thresh : ℚ
  insolvent_thresh : ℚ
  unemp_exit_boost_after : ℕ
  exit_prob_monthly_if_insolvent_unemployed : ℚ
  exit_prob_monthly_if_insolvent_only : ℚ
  chunk_size : ℕ
  sample_size : ℕ
  hist_bins : List ℚ
deriving DecidableEq, Inhabited

/-- The defaults of the `SimParams` dataclass, as exact rationals. -/
def defaultParams : SimParams where
  seed := 1234
  months := 120
  capital_logn_mu := 1.15
  capital_logn_sigma := 0.85
  capital_cap_max := 48
  tier_probs := (0.45, 0.40, 0.15)
  job_slot_ratio0 := 0.62
  job_slot_decline := 0.0015
  hire_friction := 0.92
  rev_employed_mu := (0.02, 0.08, 0.20)
  rev_unemployed_mu := (-0.40, -0.32, -0.22)
  rev_sigma := (0.10, 0.08, 0.07)
  shock_prob_monthly := 0.02
  shock_cost_mu := 0.5
  shock_cost_sigma := 0.65
  separation_prob_monthly := 0.030
  separation_income_hit := 0.40
  precarious_thresh := 1.5
  insolvent_thresh := 0
  unemp_exit_boost_after := 6
  exit_prob_monthly_if_insolvent_unemployed := 0.06
  exit_prob_monthly_if_insolvent_only := 0.02
  chunk_size := 5000000
  sample_size := 1000000
  hist_bins := [0, 0.5, 1, 2, 3, 6, 12, 24, 36, 48]

/-- Component of a 3-tuple of rationals at a tier index. -/
def tupGet (t : ℚ × ℚ × ℚ) : Fin 3 → ℚ
  | 0 => t.1
  | 1 => t.2.1
  | 2 => t.2.2

/-- `np.clip(x, 0.0, 1.0)`. -/
def clip01 (x : ℚ) : ℚ := min (max x 0) 1

/-- The `uint8` unemployment-counter update
`np.minimum(um + 1, 255).astype(np.uint8)`: the addition `um + 1` is
performed in `uint8`, hence wraps modulo 256 before the minimum applies. -/
def umInc (um : ℕ) : ℕ := min ((um + 1) % 256) 255

/-- Categorical draw `rng.choice(3, p=(p0,p1,p2))`, modelled by inverse-CDF
on one oracle uniform (NumPy uses a cumulative-sum search on a uniform). -/
def catDraw (probs : ℚ × ℚ × ℚ) (u : ℚ) : Fin 3 :=
  if u < probs.1 then 0
  else if u < probs.1 + probs.2.1 then 1
  else 2

/-- Initial state assignment of `initialize_population`: `state[:] = STABLE`,
then `state[capital < precarious_thresh] = PRECARIOUS`, then
`state[capital <= insolvent_thresh] = INSOLVENT` — the insolvent write is
last, so it wins on overlap. -/
def stateInitOf (p : SimParams) (cap : ℚ) : AgentState :=
  if cap ≤ p.insolvent_thresh then INSOLVENT
  else if cap < p.precarious_thresh then PRECARIOUS
  else STABLE

/-- Monthly reclassification (lines 210–217), preserving the source's write
order: `stt[newly_insolvent] = INSOLVENT`, then
`stt[newly_precarious] = PRECARIOUS` (which excludes the insolvent mask),
then `stt[newly_stable] = STABLE` — the stable write is last, so on overlap
(`insolvent_thresh ≥ precarious_thresh`) it overwrites the insolvent one. -/
def reclass (p : SimParams) (cap : ℚ) (st : AgentState) : AgentState :=
  let s1 := if cap ≤ p.insolvent_thresh then INSOLVENT else st
  let s2 := if cap < p.precarious_thresh ∧ ¬ (cap ≤ p.insolvent_thresh) then PRECARIOUS else s1
  if p.precarious_thresh ≤ cap then STABLE else s2

/-- Initial capital of agent `i`: a log-normal variate (modelled as oracle
position `i` of the initialization stream) clipped from above by
`np.minimum(cap, capital_cap_max)`. -/
def capInitAt (p : SimParams) (g : StreamQ) (i : ℕ) : ℚ :=
  min (g i) p.capital_cap_max

/-- Initial tier of agent `i`: `rng.choice(3, size=N, p=tier_probs)` consumes
the N oracle positions following the capital draws. -/
def tierInitAt (p : SimParams) (g : StreamQ) (N i : ℕ) : Fin 3 :=
  catDraw p.tier_probs (g (N + i))

/-- The population right after `initialize_population`, as a list of agent
rows: `employed` and `unemp_months` are zeroed, `state` derives from the
drawn capital. -/
def initPop (N : ℕ) (p : SimParams) (g : StreamQ) : List Agent :=
  (List.range N).map fun i =>
    { capital := capInitAt p g i
      tier := tierInitAt p g N i
      employed := false
      um := 0
      state := stateInitOf p (capInitAt p g i) }

/-- One pick of `rng.choice(N, size=k, replace=False)`, modelled as an
oracle-driven selection from the list of still-available indices. -/
def pickIdx (u : ℚ) (len : ℕ) : ℕ := (u * len).floor.toNat % len

/-- Without-replacement sampling: `k` picks, one oracle value per pick,
removing each picked index from the pool. -/
def sampleGo (g : StreamQ) (c : ℕ) (avail : List ℕ) : ℕ → List ℕ
  | 0 => []
  | k + 1 =>
    let j := pickIdx (g c) avail.length
    avail.getD j 0 :: sampleGo g (c + 1) (avail.eraseIdx j) k

/-- `sample_idx = rng.choice(N, size=min(sample_size, N), replace=False)`,
consuming the `k` oracle positions after the `2 * N` initialization draws. -/
def sampleIdx (N k : ℕ) (g : StreamQ) : List ℕ :=
  sampleGo g (2 * N) (List.range N) k

/-- The dict returned by `initialize_population`, columnar. -/
structure InitResult where
  capital : List ℚ
  tiers : List (Fin 3)
  employed : List Bool
  unemp_months : List ℕ
  state : List AgentState
  sample_idx : List ℕ
deriving DecidableEq, Inhabited

/-- `initialize_population(N, p)` with the `default_rng(p.seed)` stream `g`:
capital draws, tier draws, zeroed employment fields, threshold-derived
states, and the fixed visualization sample. -/
def initialize_population (N : ℕ) (p : SimParams) (g : StreamQ) : InitResult :=
  { capital := (initPop N p g).map (·.capital)
    tiers := (initPop N p g).map (·.tier)
    employed := (initPop N p g).map (·.employed)
    unemp_months := (initPop N p g).map (·.um)
    state := (initPop N p g).map (·.state)
    sample_idx := sampleIdx N (min p.sample_size N) g }

/-- Validity check that NumPy's `rng.choice(3, p=tier_probs)` performs on the
probability vector (tolerance abstracted to an exact check over `ℚ`). -/
def tier_probs_ok (p : SimParams) : Prop :=
  p.tier_probs.1 + p.tier_probs.2.1 + p.tier_probs.2.2 = 1 ∧
    0 ≤ p.tier_probs.1 ∧ 0 ≤ p.tier_probs.2.1 ∧ 0 ≤ p.tier_probs.2.2

instance (p : SimParams) : Decidable (tier_probs_ok p) := by
  unfold tier_probs_ok; infer_instance

/-! ## Monthly transition kernel (lines 155–239)

One chunk is a contiguous slice of the population.  The vectorized kernel is
embedded index-wise: for a chunk of length `size` starting with kernel-stream
cursor `c`, the stream positions consumed are, in source order,

* employment draws `rng.random(size)` at `c .. c+size-1` (agent `i` gets
  position `c + i`),
* shock draws at `c+size .. c+2*size-1`,
* shock costs (`size=shocked.sum()`) at `c+2*size ..`, assigned to the
  shocked agents in index order (agent `i` gets offset `shockRank i`),
* separation draws at `c+2*size+nShocked ..`,
* cashflow normals, drawn tier 0 first, then tier 1, then tier 2, each of
  `size=mask.sum()` — an active agent of tier `t` gets offset
  `tierOffset + tierRank` after `c+3*size+nShocked`,
* exit draws `rng.random(size)` at `c+3*size+nShocked+nActive ..`, consumed
  only when the chunk has at least one insolvent agent (`if insol.any()`).
-/

/-- Row `i` of a chunk (out-of-range reads never occur at the indices used). -/
def agRow (chunk : List Agent) (i : ℕ) : Agent := chunk.getD i default

/-- `active = (stt != EXITED)` at index `i`. -/
def activeAt (chunk : List Agent) (i : ℕ) : Bool :=
  decide ((agRow chunk i).state ≠ EXITED)

/-- Employment assignment: `emp[:] = 0; emp[active & (draw < slot_ratio)] = 1`. -/
def emp1At (ratio : ℚ) (g : StreamQ) (c : ℕ) (chunk : List Agent) (i : ℕ) : Bool :=
  activeAt chunk i && decide (g (c + i) < ratio)

/-- Shock mask: `shocked = active & (shock_draw < shock_prob_monthly)`. -/
def shockedAt (p : SimParams) (g : StreamQ) (c : ℕ) (chunk : List Agent) (i : ℕ) : Bool :=
  activeAt chunk i && decide (g (c + chunk.length + i) < p.shock_prob_monthly)

/-- Position of agent `i` among the shocked agents (index order). -/
def shockRank (p : SimParams) (g : StreamQ) (c : ℕ) (chunk : List Agent) (i : ℕ) : ℕ :=
  (List.range i).countP (shockedAt p g c chunk)

/-- `shocked.sum()` for the chunk. -/
def nShocked (p : SimParams) (g : StreamQ) (c : ℕ) (chunk : List Agent) : ℕ :=
  (List.range chunk.length).countP (shockedAt p g c chunk)

/-- Capital after the shock step: `cap[shocked] -= costs`. -/
def cap1At (p : SimParams) (g : StreamQ) (c : ℕ) (chunk : List Agent) (i : ℕ) : ℚ :=
  if shockedAt p g c chunk i then
    (agRow chunk i).capital - g (c + 2 * chunk.length + shockRank p g c chunk i)
  else (agRow chunk i).capital

/-- Separation mask: `separated = active & (sep_draw < separation_prob_monthly)`. -/
def sepAt (p : SimParams) (g : StreamQ) (c : ℕ) (chunk : List Agent) (i : ℕ) : Bool :=
  activeAt chunk i &&
    decide (g (c + 2 * chunk.length + nShocked p g c chunk + i) < p.separation_prob_monthly)

/-- Capital after the separation step: `cap[separated] -= separation_income_hit`. -/
def cap2At (p : SimParams) (g : StreamQ) (c : ℕ) (chunk : List Agent) (i : ℕ) : ℚ :=
  if sepAt p g c chunk i then cap1At p g c chunk i - p.separation_income_hit
  else cap1At p g c chunk i

/-- Employment after the separation step: `emp[separated] = 0`. -/
def emp2At (p : SimParams) (ratio : ℚ) (g : StreamQ) (c : ℕ) (chunk : List Agent) (i : ℕ) : Bool :=
  emp1At ratio g c chunk i && !(sepAt p g c chunk i)

/-- Unemployment-duration update: increment (with the modelled `uint8` wrap)
for active unemployed, reset to 0 for active employed, untouched otherwise. -/
def um1At (p : SimParams) (ratio : ℚ) (g : StreamQ) (c : ℕ) (chunk : List Agent) (i : ℕ) : ℕ :=
  if activeAt chunk i && !(emp2At p ratio g c chunk i) then umInc (agRow chunk i).um
  else if activeAt chunk i && emp2At p ratio g c chunk i then 0
  else (agRow chunk i).um

/-- `mask.sum()` of `active & (tr == t)` restricted to indices below `n`. -/
def tierCountBelow (chunk : List Agent) (t : Fin 3) (n : ℕ) : ℕ :=
  (List.range n).countP fun j => activeAt chunk j && decide ((agRow chunk j).tier = t)

/-- Offset of tier `t`'s cashflow block inside the month's normal draws:
tiers are drawn in the order 0, 1, 2. -/
def tierOffset (chunk : List Agent) (t : Fin 3) : ℕ :=
  (List.range chunk.length).countP fun j =>
    activeAt chunk j && decide ((agRow chunk j).tier < t)

/-- Number of active agents of the chunk (total cashflow draws consumed). -/
def nActive (chunk : List Agent) : ℕ :=
  (List.range chunk.length).countP (activeAt chunk)

/-- Cashflow delta for agent `i`: a normal variate with mean
`rev_employed_mu[t]` or `rev_unemployed_mu[t]` by employment status and
standard deviation `rev_sigma[t]`, modelled as `mu + sigma * u`. -/
def revAt (p : SimParams) (ratio : ℚ) (g : StreamQ) (c : ℕ) (chunk : List Agent) (i : ℕ) : ℚ :=
  let t := (agRow chunk i).tier
  let mu := if emp2At p ratio g c chunk i then tupGet p.rev_employed_mu t
    else tupGet p.rev_unemployed_mu t
  let u := g (c + 3 * chunk.length + nShocked p g c chunk +
    tierOffset chunk t + tierCountBelow chunk t i)
  mu + tupGet p.rev_sigma t * u

/-- Capital after the cashflow step: `cap[active] += rev[active]`. -/
def cap3At (p : SimParams) (ratio : ℚ) (g : StreamQ) (c : ℕ) (chunk : List Agent) (i : ℕ) : ℚ :=
  if activeAt chunk i then cap2At p g c chunk i + revAt p ratio g c chunk i
  else cap2At p g c chunk i

/-- State after the reclassification step (only active agents are written). -/
def st3At (p : SimParams) (ratio : ℚ) (g : StreamQ) (c : ℕ) (chunk : List Agent) (i : ℕ) : AgentState :=
  if activeAt chunk i then reclass p (cap3At p ratio g c chunk i) (agRow chunk i).state
  else (agRow chunk i).state

/-- `insol = (stt == INSOLVENT) & active` after reclassification. -/
def insolAt (p : SimParams) (ratio : ℚ) (g : StreamQ) (c : ℕ) (chunk : List Agent) (i : ℕ) : Bool :=
  decide (st3At p ratio g c chunk i = INSOLVENT) && activeAt chunk i

/-- `insol.any()`: gates both the exit block and its stream consumption. -/
def anyInsol (p : SimParams) (ratio : ℚ) (g : StreamQ) (c : ℕ) (chunk : List Agent) : Bool :=
  (List.range chunk.length).any (insolAt p ratio g c chunk)

/-- `deep_unemp = insol & (um >= unemp_exit_boost_after) & (emp == 0)`. -/
def deepAt (p : SimParams) (ratio : ℚ) (g : StreamQ) (c : ℕ) (chunk : List Agent) (i : ℕ) : Bool :=
  insolAt p ratio g c chunk i &&
    decide (p.unemp_exit_boost_after ≤ um1At p ratio g c chunk i) &&
    !(emp2At p ratio g c chunk i)

/-- Exit risk: `risk[deep_unemp] = ...unemployed`, `risk[shallow] = ...only`,
zero elsewhere. -/
def riskAt (p : SimParams) (ratio : ℚ) (g : StreamQ) (c : ℕ) (chunk : List Agent) (i : ℕ) : ℚ :=
  if deepAt p ratio g c chunk i then p.exit_prob_monthly_if_insolvent_unemployed
  else if insolAt p ratio g c chunk i then p.exit_prob_monthly_if_insolvent_only
  else 0

/-- `exiting = insol & (exit_draw < risk)`; when no agent of the chunk is
insolvent the block is skipped, and then `insol` is all-false anyway. -/
def exitingAt (p : SimParams) (ratio : ℚ) (g : StreamQ) (c : ℕ) (chunk : List Agent) (i : ℕ) : Bool :=
  insolAt p ratio g c chunk i &&
    decide (g (c + 3 * chunk.length + nShocked p g c chunk + nActive chunk + i) <
      riskAt p ratio g c chunk i)

/-- The fully updated row `i` after the eight kernel steps. -/
def agentStepAt (p : SimParams) (ratio : ℚ) (g : StreamQ) (c : ℕ) (chunk : List Agent) (i : ℕ) : Agent :=
  { capital := cap3At p ratio g c chunk i
    tier := (agRow chunk i).tier
    employed := if exitingAt p ratio g c chunk i then false else emp2At p ratio g c chunk i
    um := if exitingAt p ratio g c chunk i then umInc (um1At p ratio g c chunk i)
      else um1At p ratio g c chunk i
    state := if exitingAt p ratio g c chunk i then EXITED else st3At p ratio g c chunk i }

/-- One kernel application to one chunk: the updated rows and the kernel
stream cursor after the month's draws for this chunk.  `rng.random(size)` is
issued three times unconditionally (employment, shock, separation), the
shock costs consume `shocked.sum()`, the cashflow normals `nActive`, and the
exit draws consume `size` only when some agent of the chunk is insolvent. -/
def advanceChunk (p : SimParams) (ratio : ℚ) (g : StreamQ) (c : ℕ) (chunk : List Agent) :
    List Agent × ℕ :=
  ((List.range chunk.length).map (agentStepAt p ratio g c chunk),
    c + 3 * chunk.length + nShocked p g c chunk + nActive chunk +
      (if anyInsol p ratio g c chunk then chunk.length else 0))

/-! ## Simulation driver (lines 129–281) -/

/-- The clamped effective job-slot ratio of month `m`:
`clip(job_slot_ratio0 * (1 - job_slot_decline)**m * hire_friction, 0, 1)`. -/
def slotREff (p : SimParams) (m : ℕ) : ℚ :=
  clip01 (p.job_slot_ratio0 * (1 - p.job_slot_decline) ^ m * p.hire_friction)

/-- The chunk loop `for start in range(0, N, chunk)` of one month, threading
the kernel-stream cursor across chunks.  `fuel` is an upper bound on the
number of chunks (the caller passes the population size); with
`chunk_size ≥ 1` it is never exhausted. -/
def runChunks (p : SimParams) (ratio : ℚ) (g : StreamQ) :
    ℕ → List Agent → ℕ → List Agent × ℕ
  | _, [], c => ([], c)
  | 0, pop, c => (pop, c)
  | fuel + 1, a :: pop, c =>
    let res := advanceChunk p ratio g c ((a :: pop).take p.chunk_size)
    let rest := runChunks p ratio g fuel ((a :: pop).drop p.chunk_size) res.2
    (res.1 ++ rest.1, rest.2)

/-- One month of the driver: all chunks of the population, in index order. -/
def monthUpd (p : SimParams) (m : ℕ) (g : StreamQ) (st : List Agent × ℕ) :
    List Agent × ℕ :=
  runChunks p (slotREff p m) g st.1.length st.1 st.2

/-- Population (and kernel-stream cursor) after `m` completed months:
month `0`'s chunks are applied to the initialized population, and the cursor
persists across months (one generator for the whole evolution). -/
def popAt (N : ℕ) (p : SimParams) (gI gK : StreamQ) : ℕ → List Agent × ℕ
  | 0 => (initPop N p gI, 0)
  | m + 1 => monthUpd p m gK (popAt N p gI gK m)

/-! ## Aggregator (lines 241–250) -/

/-- `int(np.count_nonzero(state == EXITED))`. -/
def exitedCount (pop : List Agent) : ℕ :=
  pop.countP fun a => decide (a.state = EXITED)

/-- `int(np.count_nonzero(state != EXITED))`. -/
def activeCount (pop : List Agent) : ℕ :=
  pop.countP fun a => decide (a.state ≠ EXITED)

/-- `int(np.count_nonzero((state != EXITED) & (employed == 1)))`. -/
def employedCount (pop : List Agent) : ℕ :=
  pop.countP fun a => decide (a.state ≠ EXITED) && a.employed

/-- `int(np.count_nonzero((state != EXITED) & (employed == 0)))`. -/
def unemployedCount (pop : List Agent) : ℕ :=
  pop.countP fun a => decide (a.state ≠ EXITED) && !a.employed

/-- `samp = capital[sample_idx]`. -/
def sampleCaps (pop : List Agent) (idx : List ℕ) : List ℚ :=
  idx.map fun i => (agRow pop i).capital

/-- `samp.mean()` (callers guarantee a non-empty sample). -/
def meanQ (xs : List ℚ) : ℚ := xs.sum / xs.length

/-- Insertion of one value into a sorted list (ascending). -/
def insertSorted (x : ℚ) : List ℚ → List ℚ
  | [] => [x]
  | y :: ys => if x ≤ y then x :: y :: ys else y :: insertSorted x ys

/-- Ascending sort, as performed internally by `np.percentile`. -/
def sortQ : List ℚ → List ℚ
  | [] => []
  | x :: xs => insertSorted x (sortQ xs)

/-- `np.percentile(xs, q)` with the default linear-interpolation method:
`h = (n-1) * q/100`, result `s[lo] + (h - lo) * (s[hi] - s[lo])` on the
sorted values, `lo = floor h`, `hi = min (lo+1) (n-1)`. -/
def percentileQ (q : ℚ) (xs : List ℚ) : ℚ :=
  let n := xs.length
  let s := sortQ xs
  let h := ((n : ℚ) - 1) * q / 100
  let lo := h.floor.toNat
  let hi := min (lo + 1) (n - 1)
  s.getD lo 0 + (h - h.floor) * (s.getD hi 0 - s.getD lo 0)

/-- `np.histogram(xs, bins)[0]`: every bin is closed on the left and open on
the right, except the last bin which is closed on both sides; values outside
`[bins[0], bins[-1]]` fall in no bin.  Structurally recursive on the list of
edges; fewer than two edges give no bins. -/
def histCount : List ℚ → List ℚ → List ℕ
  | [b0, b1], xs => [xs.countP fun x => decide (b0 ≤ x) && decide (x ≤ b1)]
  | b0 :: b1 :: b2 :: bs, xs =>
    (xs.countP fun x => decide (b0 ≤ x) && decide (x < b1)) ::
      histCount (b1 :: b2 :: bs) xs
  | _, _ => []

/-- `final_slot_ratio = job_slot_ratio0 * ((1.0 - job_slot_decline) ** (months - 1)) * hire_friction`
(line 263) — computed without the clamp used inside the month loop.  The
exponent is the integer `months - 1`: for `months = 0` it is `-1` and the
source takes the reciprocal of `1 - job_slot_decline`, which the integer
power over `ℚ` also does.  The single point where the two differ —
`months = 0` with `job_slot_decline = 1`, where `0 ^ (-1 : ℤ) = 0` in `ℚ`
but Python raises `ZeroDivisionError` — is excluded by the corresponding
error branch of `simulateWith`. -/
def final_effective_job_slot (p : SimParams) : ℚ :=
  p.job_slot_ratio0 * (1 - p.job_slot_decline) ^ ((p.months : ℤ) - 1) * p.hire_friction

/-- The `series` dict of `simulate`'s return value.  The field
`final_effective_job_slot` embeds the key `final_effective_job_slot_ratio`. -/
structure Series where
  active : List ℕ
  exited : List ℕ
  employed : List ℕ
  unemployed : List ℕ
  mean_runway_sample : List ℚ
  p10_runway_sample : List ℚ
  p50_runway_sample : List ℚ
  p90_runway_sample : List ℚ
  hist_runway_sample : List (List ℕ)
  hist_bins : List ℚ
  final_effective_job_slot : ℚ
deriving DecidableEq, Inhabited

/-- `simulate`'s full return value: the series plus the ending per-agent
arrays and the fixed sample indices (the `pop` dict). -/
structure Output where
  series : Series
  capital : List ℚ
  tiers : List (Fin 3)
  employed : List Bool
  unemp_months : List ℕ
  state : List AgentState
  sample_idx : List ℕ
deriving DecidableEq, Inhabited

/-- `simulate(N, p)` given the two oracle streams (initialization stream and
kernel stream).  The three error branches model, in the order in which the
source would raise them: NumPy's probability-vector check inside
`rng.choice` during initialization, Python's `range(0, N, 0)` check on the
first month's chunk loop, NumPy's complaint when the month's percentile
call runs on an empty sample (`min(sample_size, N) = 0`), and Python's
complaint at line 263 when `months = 0` makes the final-ratio exponent
`-1` while the base `1.0 - job_slot_decline` is exactly zero (for
`months ≥ 1` the exponent is non-negative and no error can occur; for
`months = 0` line 263 is reached right after initialization, so only the
tier-probability error precedes it). -/
def simulateWith (N : ℕ) (p : SimParams) (gI gK : StreamQ) : Except String Output :=
  if ¬ tier_probs_ok p then .error "ValueError: probabilities do not sum to 1"
  else if p.months ≠ 0 ∧ p.chunk_size = 0 then
    .error "ValueError: range() arg 3 must not be zero"
  else if p.months ≠ 0 ∧ min p.sample_size N = 0 then
    .error "IndexError: cannot do a non-empty take from an empty axes"
  else if p.months = 0 ∧ 1 - p.job_slot_decline = 0 then
    .error "ZeroDivisionError: 0.0 cannot be raised to a negative power"
  else
    let sidx := sampleIdx N (min p.sample_size N) gI
    let pops : ℕ → List Agent := fun m => (popAt N p gI gK m).1
    let samp : ℕ → List ℚ := fun m => sampleCaps (pops (m + 1)) sidx
    .ok
      { series :=
          { active := (List.range p.months).map fun m => activeCount (pops (m + 1))
            exited := (List.range p.months).map fun m => exitedCount (pops (m + 1))
            employed := (List.range p.months).map fun m => employedCount (pops (m + 1))
            unemployed := (List.range p.months).map fun m => unemployedCount (pops (m + 1))
            mean_runway_sample := (List.range p.months).map fun m => meanQ (samp m)
            p10_runway_sample := (List.range p.months).map fun m => percentileQ 10 (samp m)
            p50_runway_sample := (List.range p.months).map fun m => percentileQ 50 (samp m)
            p90_runway_sample := (List.range p.months).map fun m => percentileQ 90 (samp m)
            hist_runway_sample := (List.range p.months).map fun m => histCount p.hist_bins (samp m)
            hist_bins := p.hist_bins
            final_effective_job_slot := final_effective_job_slot p }
        capital := (pops p.months).map (·.capital)
        tiers := (pops p.months).map (·.tier)
        employed := (pops p.months).map (·.employed)
        unemp_months := (pops p.months).map (·.um)
        state := (pops p.months).map (·.state)
        sample_idx := sidx }

/-- `simulate(N, p)`: the initialization draws come from the source seeded
with `p.seed` and the monthly kernel from the source seeded with
`p.seed + 1`.  `G` maps a seed to its stream. -/
def simulate (N : ℕ) (p : SimParams) (G : ℕ → StreamQ) : Except String Output :=
  simulateWith N p (G p.seed) (G (p.seed + 1))

/-! ## Concrete instances used by counterexamples and witnesses

`pQuiet` is a benign parameter set: one month, all shock / separation / exit
probabilities zero, zero cashflow means and sigmas, tier mixture
concentrated on tier 0, thresholds `precarious = 1`, `insolvent = 0`. -/

def pQuiet : SimParams where
  seed := 0
  months := 1
  capital_logn_mu := 0
  capital_logn_sigma := 0
  capital_cap_max := 100
  tier_probs := (1, 0, 0)
  job_slot_ratio0 := 1/2
  job_slot_decline := 0
  hire_friction := 1
  rev_employed_mu := (0, 0, 0)
  rev_unemployed_mu := (0, 0, 0)
  rev_sigma := (0, 0, 0)
  shock_prob_monthly := 0
  shock_cost_mu := 0
  shock_cost_sigma := 0
  separation_prob_monthly := 0
  separation_income_hit := 0
  precarious_thresh := 1
  insolvent_thresh := 0
  unemp_exit_boost_after := 6
  exit_prob_monthly_if_insolvent_unemployed := 0
  exit_prob_monthly_if_insolvent_only := 0
  chunk_size := 2
  sample_size := 1
  hist_bins := [0, 100]

/-- Initialization stream for two agents: capitals 10, 10; tier draws and
the sample draw all `1/2`. -/
def gIq : StreamQ := fun n => if n < 2 then 10 else 1/2

/-- Kernel stream whose position 4 is small (`1/10`) and all other positions
large (`9/10`): with chunk size 2 position 4 is agent 0's separation draw,
with chunk size 1 it is agent 1's employment draw. -/
def gKq1 : StreamQ := fun n => if n = 4 then 1/10 else 9/10

/-- Seed-indexed stream family for the chunking counterexample. -/
def GC1 : ℕ → StreamQ := fun s => if s = 0 then gIq else if s = 1 then gKq1 else fun _ => 0

/-- The same parameters as `pQuiet` with only the chunk size changed. -/
def pB1 : SimParams := { pQuiet with chunk_size := 1 }

/-- Constant stream. -/
def gHalf : StreamQ := fun _ => 1/2

/-- `pQuiet` with the job-slot ratio zero: nobody is ever employed. -/
def pNoJobs : SimParams := { pQuiet with job_slot_ratio0 := 0 }

/-- An active, unemployed agent whose unemployment counter sits at the
claimed saturation value 255. -/
def ag255 : Agent := { capital := 10, tier := 0, employed := false, um := 255, state := STABLE }

/-- Two stream families that agree at seed 0 and differ everywhere else. -/
def G3a : ℕ → StreamQ := fun s => if s = 0 then gIq else fun _ => 0

/-- See `G3a`. -/
def G3b : ℕ → StreamQ := fun s => if s = 0 then gIq else fun _ => 1

/-- Two-month run of one agent that starts insolvent and exits in month 0:
no jobs, shallow exit probability 1. -/
def pExitRun : SimParams :=
  { pQuiet with months := 2, job_slot_ratio0 := 0, exit_prob_monthly_if_insolvent_only := 1 }

/-- Initialization stream giving the single agent capital 0 (insolvent). -/
def gIexit : StreamQ := fun n => if n = 0 then 0 else 1/2

/-- Stream family for the exit run. -/
def GExit : ℕ → StreamQ := fun s => if s = 0 then gIexit else gHalf

/-- The output of the exit run. -/
def outExit : Output := ((simulate 1 pExitRun GExit).toOption).getD default

/-- `pQuiet` with an initial job-slot ratio of 2: the unclamped final ratio
exceeds 1. -/
def pBig : SimParams := { pQuiet with job_slot_ratio0 := 2 }

/-- The output of a run with `pBig`. -/
def outBig : Output := ((simulate 2 pBig GC1).toOption).getD default

/-- `pQuiet` with zero months. -/
def pMonths0 : SimParams := { pQuiet with months := 0 }

/-- `pQuiet` with zero months and a job-slot decline of exactly 1: the base
of the final-ratio power is 0 and its exponent is -1. -/
def pDecl1 : SimParams := { pQuiet with months := 0, job_slot_decline := 1 }

/-- `pQuiet` with tier probabilities that sum to 3/2. -/
def pBadProbs : SimParams := { pQuiet with tier_probs := (1/2, 1/2, 1/2) }

/-- Degenerate threshold order: `insolvent_thresh = 2 > precarious_thresh = 1`. -/
def pInv : SimParams := { pQuiet with insolvent_thresh := 2 }

/-- An active agent with capital 1, below `pInv.insolvent_thresh`. -/
def agMid : Agent := { capital := 1, tier := 0, employed := false, um := 0, state := PRECARIOUS }

/-- The employment invariant: an exited agent's employment flag is 0. -/
def EmpInv (pop : List Agent) : Prop :=
  ∀ a ∈ pop, a.state = EXITED → a.employed = false

/-- Equality of `Except` results is decidable when both components are. -/
instance exceptDecEq {ε α : Type} [DecidableEq ε] [DecidableEq α] :
    DecidableEq (Except ε α) := fun a b =>
  match a, b with
  | .error x, .error y =>
    if h : x = y then isTrue (by rw [h]) else isFalse (fun hc => h (by injection hc))
  | .ok x, .ok y =>
    if h : x = y then isTrue (by rw [h]) else isFalse (fun hc => h (by injection hc))
  | .error _, .ok _ => isFalse (fun hc => Except.noConfusion hc)
  | .ok _, .error _ => isFalse (fun hc => Except.noConfusion hc)

/-! ## Infrastructure lemmas -/

lemma getD_map_range {α : Type} (f : ℕ → α) (n i : ℕ) (d : α) (h : i < n) :
    ((List.range n).map f).getD i d = f i := by
  simp [List.getD_eq_getElem?_getD, List.getElem?_map, List.getElem?_range, h]

lemma advanceChunk_fst_length (p : SimParams) (r : ℚ) (g : StreamQ) (c : ℕ)
    (chunk : List Agent) : (advanceChunk p r g c chunk).1.length = chunk.length := by
  simp [advanceChunk]

lemma agRow_advanceChunk (p : SimParams) (r : ℚ) (g : StreamQ) (c : ℕ)
    (chunk : List Agent) (i : ℕ) (h : i < chunk.length) :
    agRow (advanceChunk p r g c chunk).1 i = agentStepAt p r g c chunk i := by
  unfold agRow advanceChunk
  exact getD_map_range _ _ _ _ h

lemma agRow_cons_zero (a : Agent) (l : List Agent) : agRow (a :: l) 0 = a := rfl

lemma agRow_cons_succ (a : Agent) (l : List Agent) (i : ℕ) :
    agRow (a :: l) (i + 1) = agRow l i := rfl

lemma agRow_append_left (l1 l2 : List Agent) (i : ℕ) (h : i < l1.length) :
    agRow (l1 ++ l2) i = agRow l1 i := by
  unfold agRow
  rw [List.getD_eq_getElem?_getD, List.getElem?_append, if_pos h, ← List.getD_eq_getElem?_getD]

lemma agRow_append_right (l1 l2 : List Agent) (i : ℕ) (h : l1.length ≤ i) :
    agRow (l1 ++ l2) i = agRow l2 (i - l1.length) := by
  unfold agRow
  rw [List.getD_eq_getElem?_getD, List.getElem?_append, if_neg (by omega),
    ← List.getD_eq_getElem?_getD]

lemma agRow_take (l : List Agent) (k i : ℕ) (h : i < k) :
    agRow (l.take k) i = agRow l i := by
  unfold agRow
  rw [List.getD_eq_getElem?_getD, List.getElem?_take_of_lt h, ← List.getD_eq_getElem?_getD]

lemma agRow_drop (l : List Agent) (k i : ℕ) :
    agRow (l.drop k) i = agRow l (k + i) := by
  unfold agRow
  rw [List.getD_eq_getElem?_getD, List.getElem?_drop, ← List.getD_eq_getElem?_getD]

lemma agentStepAt_state_exited (p : SimParams) (r : ℚ) (g : StreamQ) (c : ℕ)
    (chunk : List Agent) (i : ℕ) (h : (agRow chunk i).state = EXITED) :
    (agentStepAt p r g c chunk i).state = EXITED := by
  have hact : activeAt chunk i = false := by simp [activeAt, h]
  have hst3 : st3At p r g c chunk i = EXITED := by simp [st3At, hact, h]
  have hins : insolAt p r g c chunk i = false := by simp [insolAt, hact]
  have hex : exitingAt p r g c chunk i = false := by simp [exitingAt, hins]
  simp [agentStepAt, hex, hst3]

lemma agentStepAt_exited_frozen (p : SimParams) (r : ℚ) (g : StreamQ) (c : ℕ)
    (chunk : List Agent) (i : ℕ) (h : (agRow chunk i).state = EXITED)
    (he : (agRow chunk i).employed = false) :
    agentStepAt p r g c chunk i = agRow chunk i := by
  have hact : activeAt chunk i = false := by simp [activeAt, h]
  have hsh : shockedAt p g c chunk i = false := by simp [shockedAt, hact]
  have hc1 : cap1At p g c chunk i = (agRow chunk i).capital := by simp [cap1At, hsh]
  have hsep : sepAt p g c chunk i = false := by simp [sepAt, hact]
  have hc2 : cap2At p g c chunk i = (agRow chunk i).capital := by simp [cap2At, hsep, hc1]
  have hemp1 : emp1At r g c chunk i = false := by simp [emp1At, hact]
  have hemp2 : emp2At p r g c chunk i = false := by simp [emp2At, hemp1]
  have hum : um1At p r g c chunk i = (agRow chunk i).um := by simp [um1At, hact]
  have hc3 : cap3At p r g c chunk i = (agRow chunk i).capital := by simp [cap3At, hact, hc2]
  have hst3 : st3At p r g c chunk i = EXITED := by simp [st3At, hact, h]
  have hins : insolAt p r g c chunk i = false := by simp [insolAt, hact]
  have hex : exitingAt p r g c chunk i = false := by simp [exitingAt, hins]
  simp only [agentStepAt, hex, Bool.false_eq_true, if_false, hc3, hemp2, hum, hst3]
  rw [← he, ← h]

lemma reclass_ne_exited (p : SimParams) (cap : ℚ) (st : AgentState) (h : st ≠ EXITED) :
    reclass p cap st ≠ EXITED := by
  simp only [reclass]
  split_ifs <;> first
    | exact h
    | exact fun hc => AgentState.noConfusion hc

lemma advanceChunk_empInv (p : SimParams) (r : ℚ) (g : StreamQ) (c : ℕ)
    (chunk : List Agent) : EmpInv (advanceChunk p r g c chunk).1 := by
  intro a ha hst
  simp only [advanceChunk, List.mem_map, List.mem_range] at ha
  obtain ⟨i, hi, rfl⟩ := ha
  by_cases hex : exitingAt p r g c chunk i = true
  · simp [agentStepAt, hex]
  · replace hex : exitingAt p r g c chunk i = false := by
      cases hea : exitingAt p r g c chunk i
      · rfl
      · exact absurd hea hex
    simp only [agentStepAt, hex, Bool.false_eq_true, if_false] at hst ⊢
    by_cases hact : activeAt chunk i = true
    · exfalso
      have hne : (agRow chunk i).state ≠ EXITED := by simpa [activeAt] using hact
      have := reclass_ne_exited p (cap3At p r g c chunk i) _ hne
      simp only [st3At, hact, if_true] at hst
      exact this hst
    · replace hact : activeAt chunk i = false := by
        cases hea : activeAt chunk i
        · rfl
        · exact absurd hea hact
      simp [emp2At, emp1At, hact]

lemma runChunks_fst_length (p : SimParams) (r : ℚ) (g : StreamQ) :
    ∀ (fuel : ℕ) (pop : List Agent) (c : ℕ),
      (runChunks p r g fuel pop c).1.length = pop.length := by
  intro fuel
  induction fuel with
  | zero => intro pop c; cases pop <;> simp [runChunks]
  | succ n ih =>
    intro pop c
    cases pop with
    | nil => simp [runChunks]
    | cons a l =>
      simp only [runChunks]
      rw [List.length_append, advanceChunk_fst_length, ih, List.length_take, List.length_drop]
      simp only [List.length_cons]
      omega

lemma runChunks_state_exited (p : SimParams) (r : ℚ) (g : StreamQ) :
    ∀ (fuel : ℕ) (pop : List Agent) (c i : ℕ), i < pop.length →
      (agRow pop i).state = EXITED →
      (agRow (runChunks p r g fuel pop c).1 i).state = EXITED := by
  intro fuel
  induction fuel with
  | zero =>
    intro pop c i hi hst
    cases pop with
    | nil => simp at hi
    | cons a l => simpa [runChunks] using hst
  | succ n ih =>
    intro pop c i hi hst
    cases pop with
    | nil => simp at hi
    | cons a l =>
      simp only [runChunks]
      by_cases hlt : i < ((a :: l).take p.chunk_size).length
      · rw [agRow_append_left _ _ _ (by rw [advanceChunk_fst_length]; exact hlt)]
        rw [agRow_advanceChunk _ _ _ _ _ _ hlt]
        apply agentStepAt_state_exited
        rw [List.length_take] at hlt
        rw [agRow_take _ _ _ (by omega)]
        exact hst
      · have hlen : ((advanceChunk p r g c ((a :: l).take p.chunk_size)).1).length =
            ((a :: l).take p.chunk_size).length := advanceChunk_fst_length ..
        rw [agRow_append_right _ _ _ (by omega)]
        rw [hlen]
        have htk : ((a :: l).take p.chunk_size).length = min p.chunk_size (a :: l).length :=
          List.length_take ..
        have hkle : p.chunk_size ≤ (a :: l).length := by
          by_contra hgt
          have : ((a :: l).take p.chunk_size).length = (a :: l).length := by
            rw [htk]; omega
          omega
        have hdl : ((a :: l).drop p.chunk_size).length = (a :: l).length - p.chunk_size :=
          List.length_drop ..
        apply ih
        · omega
        · rw [agRow_drop]
          have : p.chunk_size + (i - ((a :: l).take p.chunk_size).length) = i := by omega
          rw [this]
          exact hst

lemma runChunks_empInv (p : SimParams) (r : ℚ) (g : StreamQ) :
    ∀ (fuel : ℕ) (pop : List Agent) (c : ℕ), EmpInv pop →
      EmpInv (runChunks p r g fuel pop c).1 := by
  intro fuel
  induction fuel with
  | zero => intro pop c hInv; cases pop with
    | nil => intro a ha; simp [runChunks] at ha
    | cons b l => simpa [runChunks] using hInv
  | succ n ih =>
    intro pop c hInv
    cases pop with
    | nil => intro a ha; simp [runChunks] at ha
    | cons b l =>
      simp only [runChunks]
      intro a ha hst
      rw [List.mem_append] at ha
      rcases ha with ha | ha
      · exact advanceChunk_empInv p r g c _ a ha hst
      · refine ih _ _ (fun x hx hxs => hInv x ?_ hxs) a ha hst
        exact List.mem_of_mem_drop hx

lemma popAt_fst_length (N : ℕ) (p : SimParams) (gI gK : StreamQ) :
    ∀ m, (popAt N p gI gK m).1.length = N := by
  intro m
  induction m with
  | zero => simp [popAt, initPop]
  | succ n ih => rw [popAt, monthUpd, runChunks_fst_length, ih]

lemma popAt_empInv (N : ℕ) (p : SimParams) (gI gK : StreamQ) :
    ∀ m, EmpInv (popAt N p gI gK m).1 := by
  intro m
  induction m with
  | zero =>
    intro a ha _
    simp only [popAt, initPop, List.mem_map, List.mem_range] at ha
    obtain ⟨i, _, rfl⟩ := ha
    rfl
  | succ n ih => exact runChunks_empInv p _ gK _ _ _ ih

lemma countP_le_pointwise (P : Agent → Bool) :
    ∀ (l l' : List Agent), l.length = l'.length →
      (∀ i, i < l.length → P (agRow l i) = true → P (agRow l' i) = true) →
      l.countP P ≤ l'.countP P := by
  intro l
  induction l with
  | nil => intro l' _ _; simp
  | cons a t ih =>
    intro l' hlen hpt
    cases l' with
    | nil => simp at hlen
    | cons b t' =>
      simp only [List.countP_cons]
      have h0 : P a = true → P b = true := by
        intro hPa
        simpa [agRow_cons_zero] using hpt 0 (by simp) (by simpa [agRow_cons_zero] using hPa)
      have htail : t.countP P ≤ t'.countP P := by
        apply ih
        · simpa using hlen
        · intro i hi hP
          have := hpt (i + 1) (by simpa using Nat.succ_lt_succ hi)
            (by simpa [agRow_cons_succ] using hP)
          simpa [agRow_cons_succ] using this
      by_cases hPa : P a = true
      · rw [if_pos hPa, if_pos (h0 hPa)]; omega
      · rw [if_neg hPa]
        split_ifs <;> omega

lemma activeCount_eq_not (pop : List Agent) :
    activeCount pop = pop.countP fun a => !decide (a.state = EXITED) := by
  unfold activeCount
  congr 1
  funext a
  simp

lemma employedCount_eq_not (pop : List Agent) :
    employedCount pop = pop.countP fun a => !decide (a.state = EXITED) && a.employed := by
  unfold employedCount
  congr 1
  funext a
  simp

lemma unemployedCount_eq_not (pop : List Agent) :
    unemployedCount pop = pop.countP fun a => !decide (a.state = EXITED) && !a.employed := by
  unfold unemployedCount
  congr 1
  funext a
  simp

lemma activeCount_add_exitedCount (pop : List Agent) :
    activeCount pop + exitedCount pop = pop.length := by
  rw [activeCount_eq_not]
  unfold exitedCount
  induction pop with
  | nil => simp
  | cons a t ih =>
    simp only [List.countP_cons, List.length_cons]
    by_cases h : a.state = EXITED <;> simp [h] <;> omega

lemma employedCount_add_unemployedCount (pop : List Agent) :
    employedCount pop + unemployedCount pop = activeCount pop := by
  rw [activeCount_eq_not, employedCount_eq_not, unemployedCount_eq_not]
  induction pop with
  | nil => simp
  | cons a t ih =>
    simp only [List.countP_cons]
    by_cases h : a.state = EXITED <;> cases he : a.employed <;> simp [h, he] <;> omega

lemma sampleGo_length (g : StreamQ) :
    ∀ (k : ℕ) (c : ℕ) (avail : List ℕ), (sampleGo g c avail k).length = k := by
  intro k
  induction k with
  | zero => intro c avail; rfl
  | succ n ih => intro c avail; simp [sampleGo, ih]

lemma simulateWith_ok_fields (N : ℕ) (p : SimParams) (gI gK : StreamQ) (out : Output)
    (h : simulateWith N p gI gK = Except.ok out) :
    out.series.active = ((List.range p.months).map fun m => activeCount (popAt N p gI gK (m + 1)).1) ∧
    out.series.exited = ((List.range p.months).map fun m => exitedCount (popAt N p gI gK (m + 1)).1) ∧
    out.series.employed = ((List.range p.months).map fun m => employedCount (popAt N p gI gK (m + 1)).1) ∧
    out.series.unemployed = ((List.range p.months).map fun m => unemployedCount (popAt N p gI gK (m + 1)).1) ∧
    out.series.hist_runway_sample = ((List.range p.months).map fun m =>
      histCount p.hist_bins
        (sampleCaps (popAt N p gI gK (m + 1)).1 (sampleIdx N (min p.sample_size N) gI))) ∧
    out.series.final_effective_job_slot = final_effective_job_slot p := by
  unfold simulateWith at h
  split_ifs at h
  obtain rfl := Except.ok.inj h
  exact ⟨rfl, rfl, rfl, rfl, rfl, rfl⟩

/-! ## Claims -/

/-- C1: the claim states that changing only the chunk size never changes the
per-month time series.  This is false on the code: the monthly kernel draws
all chunks' randomness from one shared generator, so the stream position
feeding an agent depends on the chunk partition.  With the same `N = 2`,
the same parameters except `chunk_size` (2 versus 1), and the same streams,
the month-0 employed count is 0 in one run and 1 in the other. -/
theorem c1_chunk_size_changes_series :
    pB1 = { pQuiet with chunk_size := 1 } ∧
    (simulate 2 pQuiet GC1).map (fun o => o.series.employed) = Except.ok [0] ∧
    (simulate 2 pB1 GC1).map (fun o => o.series.employed) = Except.ok [1] := by
  refine ⟨rfl, ?_, ?_⟩ <;> with_unfolding_all rfl

/-- C2: the claim states `unemployment_months` saturates at 255.  In the
code, `um[mask] + 1` is `uint8` arithmetic, so at 255 it wraps to 0 before
`np.minimum(..., 255)` applies: an active agent that is unemployed for one
more month with the counter at 255 ends the month with the counter at 0. -/
theorem c2_unemp_months_wraps_at_255 :
    ag255.um = 255 ∧ ag255.state ≠ EXITED ∧
    (agRow (advanceChunk pNoJobs (slotREff pNoJobs 0) gHalf 0 [ag255]).1 0).employed = false ∧
    (agRow (advanceChunk pNoJobs (slotREff pNoJobs 0) gHalf 0 [ag255]).1 0).um = 0 := by
  refine ⟨rfl, of_decide_eq_true rfl, ?_, ?_⟩ <;> with_unfolding_all rfl

/-- C3: re-running the simulation on identical inputs gives identical
output (the embedding is a pure function of the two streams); the
initialization draws come only from the stream of seed `p.seed` and the
kernel only from the stream of seed `p.seed + 1`, so the whole run depends
only on those two streams and `initialize_population` alone is reproducible
regardless of the kernel stream. -/
theorem c3_deterministic_independent_streams (N : ℕ) (p : SimParams) (G G2 : ℕ → StreamQ) :
    simulate N p G = simulate N p G ∧
    (G p.seed = G2 p.seed →
      initialize_population N p (G p.seed) = initialize_population N p (G2 p.seed)) ∧
    (G p.seed = G2 p.seed → G (p.seed + 1) = G2 (p.seed + 1) →
      simulate N p G = simulate N p G2) := by
  refine ⟨rfl, fun h => by rw [h], fun h1 h2 => ?_⟩
  unfold simulate
  rw [h1, h2]

/-- Witness for C3 at concrete inputs: the two stream families agree at seed
0 (= `pQuiet.seed`) and differ at every other seed. -/
theorem c3_witness :
    initialize_population 2 pQuiet (G3a pQuiet.seed) =
      initialize_population 2 pQuiet (G3b pQuiet.seed) :=
  (c3_deterministic_independent_streams 2 pQuiet G3a G3b).2.1 rfl

/-- C5 counterexample: the claim states `capital <= insolvent_thresh` always
yields INSOLVENT after reclassification.  With `insolvent_thresh = 2 >
precarious_thresh = 1` an active agent whose post-cashflow capital is 1 (at
or below the insolvent threshold) ends the month STABLE, because the
stable write `stt[newly_stable] = STABLE` comes last and overwrites the
insolvent one. -/
theorem c5_counterexample_threshold_order :
    pInv.precarious_thresh ≤ pInv.insolvent_thresh ∧
    (1 : ℚ) ≤ pInv.insolvent_thresh ∧
    reclass pInv 1 PRECARIOUS = STABLE ∧
    (agRow (advanceChunk pInv (slotREff pInv 0) gHalf 0 [agMid]).1 0).capital = 1 ∧
    (agRow (advanceChunk pInv (slotREff pInv 0) gHalf 0 [agMid]).1 0).state = STABLE := by
  refine ⟨?_, ?_, ?_, ?_, ?_⟩
  · exact of_decide_eq_true (by with_unfolding_all rfl)
  · exact of_decide_eq_true (by with_unfolding_all rfl)
  · with_unfolding_all rfl
  · with_unfolding_all rfl
  · with_unfolding_all rfl

/-- C5 amended: whenever `insolvent_thresh < precarious_thresh` (true of the
defaults and of any configuration in which the thresholds are ordered as
their names suggest), the reclassification is exactly the claimed pure
function of post-cashflow capital — `capital ≤ insolvent_thresh` is
INSOLVENT (boundary inclusive, insolvent check first), else
`capital < precarious_thresh` is PRECARIOUS, else STABLE — independent of
the previous state. -/
theorem c5_reclass_amended (p : SimParams)
    (hlt : p.insolvent_thresh < p.precarious_thresh) (cap : ℚ) (st : AgentState) :
    reclass p cap st =
      (if cap ≤ p.insolvent_thresh then INSOLVENT
       else if cap < p.precarious_thresh then PRECARIOUS
       else STABLE) := by
  simp only [reclass]
  by_cases h1 : cap ≤ p.insolvent_thresh
  · have hnp : ¬ p.precarious_thresh ≤ cap := by linarith
    simp [h1, hnp]
  · by_cases h2 : cap < p.precarious_thresh
    · have hnp : ¬ p.precarious_thresh ≤ cap := by linarith
      simp [h1, h2, hnp]
    · have hp : p.precarious_thresh ≤ cap := by linarith
      simp [h1, h2, hp]

/-- Witness for C5's amended theorem at the default thresholds. -/
theorem c5_witness : reclass defaultParams 0 STABLE = INSOLVENT := by
  rw [c5_reclass_amended defaultParams (of_decide_eq_true (by with_unfolding_all rfl)) 0 STABLE]
  with_unfolding_all rfl

/-- C7 counterexample: the claim states that non-positive `months` is
rejected immediately with an InvalidParameters error.  The code performs no
such validation: with `months = 0` the run completes successfully (the
month loop body never executes) and returns an (empty) series. -/
theorem c7_counterexample_months_zero :
    pMonths0.months = 0 ∧ (simulate 5 pMonths0 GExit).toOption.isSome = true := by
  refine ⟨rfl, ?_⟩
  with_unfolding_all rfl

/-- C7 amended: an invalid tier-probability vector is rejected by NumPy
inside `rng.choice` during initialization (a generic `ValueError`, not a
dedicated InvalidParameters kind), before any month is simulated.  A zero
month count is not rejected: it returns an empty series successfully —
unless `job_slot_decline = 1`, in which case line 263 evaluates
`0.0 ** -1` right after initialization and raises `ZeroDivisionError`.
`N = 0` is not rejected immediately either: with valid probabilities, at
least one month and a nonzero chunk size it fails only when the first
month's aggregation takes percentiles of the empty sample (an
`IndexError`, after initialization and that month's kernel ran), and with
zero months it completes.  A sample size exceeding `N` never breaks the
without-replacement draw because the code clamps it with
`min(sample_size, N)`. -/
theorem c7_error_handling_amended (N : ℕ) (p : SimParams) (gI gK : StreamQ) :
    (¬ tier_probs_ok p →
      simulateWith N p gI gK = Except.error "ValueError: probabilities do not sum to 1") ∧
    (tier_probs_ok p → p.months = 0 → 1 - p.job_slot_decline ≠ 0 →
      ∃ o, simulateWith N p gI gK = Except.ok o) ∧
    (tier_probs_ok p → p.months = 0 → 1 - p.job_slot_decline = 0 →
      simulateWith N p gI gK =
        Except.error "ZeroDivisionError: 0.0 cannot be raised to a negative power") ∧
    (tier_probs_ok p → N = 0 → p.months ≠ 0 → p.chunk_size ≠ 0 →
      simulateWith N p gI gK =
        Except.error "IndexError: cannot do a non-empty take from an empty axes") ∧
    (initialize_population N p gI).sample_idx.length = min p.sample_size N := by
  refine ⟨fun hbad => ?_, fun hok hm hd => ?_, fun hok hm hd => ?_, fun hok hN hm hc => ?_, ?_⟩
  · unfold simulateWith
    rw [if_pos hbad]
  · unfold simulateWith
    rw [if_neg (by simpa using hok), if_neg (by simp [hm]), if_neg (by simp [hm]),
      if_neg (by simp [hd])]
    exact ⟨_, rfl⟩
  · unfold simulateWith
    rw [if_neg (by simpa using hok), if_neg (by simp [hm]), if_neg (by simp [hm]),
      if_pos ⟨hm, hd⟩]
  · unfold simulateWith
    rw [if_neg (by simpa using hok), if_neg (by simp [hc]), if_pos ⟨hm, by simp [hN]⟩]
  · show (sampleIdx N (min p.sample_size N) gI).length = min p.sample_size N
    unfold sampleIdx
    exact sampleGo_length gI _ _ _

/-- Witness for C7's amended theorem: tier probabilities summing to 3/2
are rejected before any month runs; zero months with `job_slot_decline = 1`
raises the division error; `N = 0` with one month fails at the empty
percentile sample. -/
theorem c7_witness :
    simulateWith 3 pBadProbs gHalf gHalf =
      Except.error "ValueError: probabilities do not sum to 1" ∧
    simulateWith 4 pDecl1 gHalf gHalf =
      Except.error "ZeroDivisionError: 0.0 cannot be raised to a negative power" ∧
    simulateWith 0 pQuiet gHalf gHalf =
      Except.error "IndexError: cannot do a non-empty take from an empty axes" :=
  ⟨(c7_error_handling_amended 3 pBadProbs gHalf gHalf).1
      (of_decide_eq_true (by with_unfolding_all rfl)),
    (c7_error_handling_amended 4 pDecl1 gHalf gHalf).2.2.1
      (of_decide_eq_true (by with_unfolding_all rfl)) rfl (by with_unfolding_all rfl),
    (c7_error_handling_amended 0 pQuiet gHalf gHalf).2.2.2.1
      (of_decide_eq_true (by with_unfolding_all rfl)) rfl
      (of_decide_eq_true (by with_unfolding_all rfl))
      (of_decide_eq_true (by with_unfolding_all rfl))⟩

/-- C9: the reported `final_effective_job_slot_ratio` is the unclamped
product `job_slot_ratio0 * (1 - job_slot_decline)^(months-1) *
hire_friction`, and whenever that product exceeds 1 (or is negative) it
differs from the clamped ratio `slotREff p (months-1)` actually used as the
employment probability of the last month. -/
theorem c9_final_slot_unclamped (N : ℕ) (p : SimParams) (gI gK : StreamQ) (out : Output)
    (_hm : 1 ≤ p.months) (h : simulateWith N p gI gK = Except.ok out) :
    out.series.final_effective_job_slot =
      p.job_slot_ratio0 * (1 - p.job_slot_decline) ^ (p.months - 1) * p.hire_friction ∧
    (1 < final_effective_job_slot p ∨ final_effective_job_slot p < 0 →
      final_effective_job_slot p ≠ slotREff p (p.months - 1)) := by
  obtain ⟨-, -, -, -, -, hf⟩ := simulateWith_ok_fields N p gI gK out h
  have hcast : final_effective_job_slot p =
      p.job_slot_ratio0 * (1 - p.job_slot_decline) ^ (p.months - 1) * p.hire_friction := by
    unfold final_effective_job_slot
    rw [show ((p.months : ℤ) - 1) = ((p.months - 1 : ℕ) : ℤ) by omega, zpow_natCast]
  refine ⟨hf.trans hcast, ?_⟩
  intro hcase heq
  have hclip : slotREff p (p.months - 1) = clip01 (final_effective_job_slot p) := by
    rw [hcast]
    rfl
  rw [hclip] at heq
  unfold clip01 at heq
  rcases hcase with hgt | hlt
  · rw [max_eq_left (by linarith), min_eq_right (by linarith)] at heq
    linarith
  · rw [max_eq_right (by linarith), min_eq_left (by norm_num)] at heq
    linarith

/-- Witness for C9: with `job_slot_ratio0 = 2` and one month, the reported
final ratio is 2, while the clamped in-loop ratio is 1. -/
theorem c9_witness :
    outBig.series.final_effective_job_slot = 2 ∧ slotREff pBig 0 = 1 := by
  have h := (c9_final_slot_unclamped 2 pBig (GC1 pBig.seed) (GC1 (pBig.seed + 1)) outBig
    (by norm_num [pBig, pQuiet]) (by with_unfolding_all rfl)).1
  rw [h]
  constructor
  · with_unfolding_all rfl
  · with_unfolding_all rfl

/-- C4: EXITED is absorbing.  (i) A kernel application leaves every field of
an exited agent unchanged (the agent's employment flag being 0 — which C8
shows is invariant — is needed because the kernel rewrites `emp[:] = 0`
each month); (ii) an exited agent is still EXITED after any kernel
application, with no side condition; (iii) consequently the `exited_count`
series of every successful run is non-decreasing over months. -/
theorem c4_exited_absorbing :
    (∀ (p : SimParams) (r : ℚ) (g : StreamQ) (c : ℕ) (chunk : List Agent) (i : ℕ),
        i < chunk.length → (agRow chunk i).state = EXITED → (agRow chunk i).employed = false →
        agRow (advanceChunk p r g c chunk).1 i = agRow chunk i) ∧
    (∀ (p : SimParams) (r : ℚ) (g : StreamQ) (c : ℕ) (chunk : List Agent) (i : ℕ),
        i < chunk.length → (agRow chunk i).state = EXITED →
        (agRow (advanceChunk p r g c chunk).1 i).state = EXITED) ∧
    (∀ (N : ℕ) (p : SimParams) (G : ℕ → StreamQ) (out : Output),
        simulate N p G = Except.ok out → ∀ m, m + 1 < p.months →
        out.series.exited.getD m 0 ≤ out.series.exited.getD (m + 1) 0) := by
  refine ⟨?_, ?_, ?_⟩
  · intro p r g c chunk i hi hst he
    rw [agRow_advanceChunk p r g c chunk i hi]
    exact agentStepAt_exited_frozen p r g c chunk i hst he
  · intro p r g c chunk i hi hst
    rw [agRow_advanceChunk p r g c chunk i hi]
    exact agentStepAt_state_exited p r g c chunk i hst
  · intro N p G out h m hm
    obtain ⟨-, he, -, -, -, -⟩ :=
      simulateWith_ok_fields N p (G p.seed) (G (p.seed + 1)) out h
    rw [he, getD_map_range _ _ _ _ (by omega), getD_map_range _ _ _ _ (by omega)]
    have key : ∀ (l l' : List Agent), l.length = l'.length →
        (∀ i, i < l.length → (agRow l i).state = EXITED → (agRow l' i).state = EXITED) →
        exitedCount l ≤ exitedCount l' := by
      intro l l' hlen hpt
      unfold exitedCount
      apply countP_le_pointwise _ _ _ hlen
      intro i hi hP
      simpa using hpt i hi (by simpa using hP)
    apply key
    · rw [popAt_fst_length, popAt_fst_length]
    · intro i hi hst
      rw [popAt_fst_length] at hi
      have := runChunks_state_exited p (slotREff p (m + 1)) (G (p.seed + 1))
        (popAt N p (G p.seed) (G (p.seed + 1)) (m + 1)).1.length
        (popAt N p (G p.seed) (G (p.seed + 1)) (m + 1)).1
        (popAt N p (G p.seed) (G (p.seed + 1)) (m + 1)).2 i
        (by rw [popAt_fst_length]; exact hi) hst
      simpa [popAt, monthUpd] using this

/-- Witness for C4 (monotone exited series) on the concrete exit run. -/
theorem c4_witness : outExit.series.exited.getD 0 0 ≤ outExit.series.exited.getD 1 0 :=
  c4_exited_absorbing.2.2 1 pExitRun GExit outExit (by with_unfolding_all rfl) 0
    (of_decide_eq_true (by with_unfolding_all rfl))

/-- C6: for every successful run and every month, the active and exited
counts partition the population (`active + exited = N`), and the employed
and unemployed counts partition the active agents. -/
theorem c6_count_identities (N : ℕ) (p : SimParams) (G : ℕ → StreamQ) (out : Output)
    (h : simulate N p G = Except.ok out) (m : ℕ) (hm : m < p.months) :
    out.series.active.getD m 0 + out.series.exited.getD m 0 = N ∧
    out.series.employed.getD m 0 + out.series.unemployed.getD m 0 =
      out.series.active.getD m 0 := by
  obtain ⟨ha, he, hemp, hun, -, -⟩ :=
    simulateWith_ok_fields N p (G p.seed) (G (p.seed + 1)) out h
  rw [ha, he, hemp, hun, getD_map_range _ _ _ _ hm, getD_map_range _ _ _ _ hm,
    getD_map_range _ _ _ _ hm, getD_map_range _ _ _ _ hm]
  constructor
  · rw [activeCount_add_exitedCount, popAt_fst_length]
  · exact employedCount_add_unemployedCount _

/-- Witness for C6 on the concrete exit run (month 0, `N = 1`). -/
theorem c6_witness :
    outExit.series.active.getD 0 0 + outExit.series.exited.getD 0 0 = 1 ∧
    outExit.series.employed.getD 0 0 + outExit.series.unemployed.getD 0 0 =
      outExit.series.active.getD 0 0 :=
  c6_count_identities 1 pExitRun GExit outExit (by with_unfolding_all rfl) 0
    (of_decide_eq_true (by with_unfolding_all rfl))

/-- C8: every agent the kernel leaves in (or moves to) the EXITED state has
employment flag 0 — the kernel's output satisfies the invariant
unconditionally, because exit forces `emp[exiting] = 0` and the monthly
employment reset assigns 1 only to active agents — and the population after
any number of months of any run satisfies it (it holds at initialization,
where `employed` is zeroed and no agent starts EXITED). -/
theorem c8_exited_implies_unemployed :
    (∀ (p : SimParams) (r : ℚ) (g : StreamQ) (c : ℕ) (chunk : List Agent),
      EmpInv (advanceChunk p r g c chunk).1) ∧
    (∀ (N : ℕ) (p : SimParams) (gI gK : StreamQ) (m : ℕ), EmpInv (popAt N p gI gK m).1) :=
  ⟨advanceChunk_empInv, popAt_empInv⟩

/-- Witness for C8: the agent that exited in month 0 of the concrete exit
run has employment flag 0 after the month. -/
theorem c8_witness : (agRow (popAt 1 pExitRun gIexit gHalf 1).1 0).employed = false :=
  c8_exited_implies_unemployed.2 1 pExitRun gIexit gHalf 1
    (agRow (popAt 1 pExitRun gIexit gHalf 1).1 0)
    (of_decide_eq_true (by with_unfolding_all rfl))
    (by with_unfolding_all rfl)

lemma sorted_head_le_getLastD :
    ∀ (l : List ℚ) (a d : ℚ), (a :: l).Sorted (· < ·) → a ≤ (a :: l).getLastD d := by
  intro l
  induction l with
  | nil => intro a d _; simp
  | cons b t ih =>
    intro a d hs
    rw [List.getLastD_cons]
    have hab : a < b := (List.sorted_cons.mp hs).1 b (by simp)
    have hb := ih b a (List.sorted_cons.mp hs).2
    linarith

lemma countP_range_split (b0 b1 L : ℚ) (hb : b0 < b1) (hL : b1 ≤ L) :
    ∀ xs : List ℚ,
      (xs.countP fun x => decide (b0 ≤ x) && decide (x < b1)) +
        (xs.countP fun x => decide (b1 ≤ x) && decide (x ≤ L)) =
      xs.countP fun x => decide (b0 ≤ x) && decide (x ≤ L) := by
  intro xs
  induction xs with
  | nil => simp
  | cons x t ih =>
    simp only [List.countP_cons]
    have hlt : (x < b1) = ¬ (b1 ≤ x) := by
      by_cases hx : b1 ≤ x
      · simp [hx, not_lt.mpr hx]
      · simp [hx, lt_of_not_le hx]
    by_cases h1 : b0 ≤ x <;> by_cases h2 : b1 ≤ x <;> by_cases h3 : x ≤ L
    all_goals try (exfalso; first
      | linarith
      | exact absurd (le_trans hb.le h2) h1
      | exact absurd (le_trans h2 hL) h3)
    all_goals (simp [hlt, h1, h2, h3]; omega)

lemma histCount_sum_eq :
    ∀ (bs : List ℚ) (b0 b1 : ℚ) (xs : List ℚ), (b0 :: b1 :: bs).Sorted (· < ·) →
      (histCount (b0 :: b1 :: bs) xs).sum =
        xs.countP fun x => decide (b0 ≤ x) && decide (x ≤ (b1 :: bs).getLastD b0) := by
  intro bs
  induction bs with
  | nil =>
    intro b0 b1 xs _
    simp [histCount]
  | cons b2 t ih =>
    intro b0 b1 xs hs
    have hs2 : (b1 :: b2 :: t).Sorted (· < ·) := (List.sorted_cons.mp hs).2
    have hab : b0 < b1 := (List.sorted_cons.mp hs).1 b1 (by simp)
    have hbL : b1 ≤ (b2 :: t).getLastD b1 := by
      rw [← List.getLastD_cons]
      exact sorted_head_le_getLastD (b2 :: t) b1 b0 hs2
    have hsum := ih b1 b2 xs hs2
    have hL : (b1 :: b2 :: t).getLastD b0 = (b2 :: t).getLastD b1 := List.getLastD_cons ..
    simp only [histCount, List.sum_cons]
    rw [hsum, hL]
    exact countP_range_split b0 b1 _ hab hbL xs

/-- C10: the histogram drops (rather than clamps) sample values outside the
outermost bin edges: for strictly increasing edges, the sum of the bin
counts equals the number of values in `[first edge, last edge]`; this holds
for the per-month histograms of every successful run; and the sum can be
strictly smaller than the sample size. -/
theorem c10_histogram_drops_out_of_range :
    (∀ (b0 b1 : ℚ) (bs : List ℚ) (xs : List ℚ), (b0 :: b1 :: bs).Sorted (· < ·) →
      (histCount (b0 :: b1 :: bs) xs).sum =
        xs.countP fun x => decide (b0 ≤ x) && decide (x ≤ (b1 :: bs).getLastD b0)) ∧
    (∀ (N : ℕ) (p : SimParams) (G : ℕ → StreamQ) (out : Output) (b0 b1 : ℚ) (bs : List ℚ),
      simulate N p G = Except.ok out → p.hist_bins = b0 :: b1 :: bs →
      (b0 :: b1 :: bs).Sorted (· < ·) → ∀ m, m < p.months →
      (out.series.hist_runway_sample.getD m []).sum =
        (sampleCaps (popAt N p (G p.seed) (G (p.seed + 1)) (m + 1)).1
            (sampleIdx N (min p.sample_size N) (G p.seed))).countP
          (fun x => decide (b0 ≤ x) && decide (x ≤ (b1 :: bs).getLastD b0))) ∧
    (∃ (bins xs : List ℚ), bins.Sorted (· < ·) ∧ (histCount bins xs).sum < xs.length) := by
  refine ⟨?_, ?_, ?_⟩
  · intro b0 b1 bs xs hs
    exact histCount_sum_eq bs b0 b1 xs hs
  · intro N p G out b0 b1 bs h hbins hs m hm
    obtain ⟨-, -, -, -, hh, -⟩ :=
      simulateWith_ok_fields N p (G p.seed) (G (p.seed + 1)) out h
    rw [hh, getD_map_range _ _ _ _ hm, hbins]
    exact histCount_sum_eq bs b0 b1 _ hs
  · refine ⟨[0, 2], [-5, 1], ?_, ?_⟩
    · simp [List.sorted_cons]
    · exact of_decide_eq_true (by with_unfolding_all rfl)


/-- Witness for C10 at concrete bins `[0, 2]` and sample `[-5, 1]`: one of
the two values lies outside the edges, so the bin counts sum to 1. -/
theorem c10_witness :
    (histCount [0, 2] [-5, 1]).sum =
      List.countP (fun x => decide ((0 : ℚ) ≤ x) && decide (x ≤ ([2] : List ℚ).getLastD 0))
        [-5, 1] :=
  c10_histogram_drops_out_of_range.1 0 2 [] [-5, 1]
    (by simp [List.sorted_cons])
